import Mathlib

/-!
Shallow embedding of the `use-form-schema` validation core (src/index.js).

The engine is a pure function of (schema, data record): `checkConstraint`
evaluates one constraint, `checkConstraints` folds a field's constraints
into an error object, `validateField` / `validateForm` are the two public
granularities.  JavaScript values reaching the engine are modelled by
`Value`; constraint parameters (heterogeneous JS values that may contain
functions) by `Params`; objects by ordered association lists.
-/

namespace UseFormSchema

/-- A JavaScript value as seen by the engine: scalar strings and numbers,
booleans, `undefined`, file descriptors `{name, size, type}` (the engine
dispatches on the presence of `.name`), arrays, `Error` objects (produced
by the evaluator's default branch), and an opaque marker for function
objects appearing where a plain value is expected. -/
inductive Value where
  | str : String → Value
  | num : Int → Value
  | bool : Bool → Value
  | undefined : Value
  | file : String → Int → String → Value
  | list : List Value → Value
  | err : Value
  | fnRef : Value

/-- JS truthiness: `''`, `0`, `false`, `undefined` are falsy; every object
(files, arrays, Error objects, functions) is truthy. -/
def Value.truthy : Value → Bool
  | .str s => s != ""
  | .num n => n != 0
  | .bool b => b
  | .undefined => false
  | .file _ _ _ => true
  | .list _ => true
  | .err => true
  | .fnRef => true

mutual

/-- JS string coercion (used for object-property keys and `RegExp.test`
arguments): strings are themselves, numbers print, arrays join with `,`. -/
def jsToString : Value → String
  | .str s => s
  | .num n => toString n
  | .bool b => if b then "true" else "false"
  | .undefined => "undefined"
  | .file _ _ _ => "[object Object]"
  | .list es => jsToStringList es
  | .err => "Error"
  | .fnRef => "function"

def jsToStringList : List Value → String
  | [] => ""
  | [v] => jsToString v
  | v :: rest => jsToString v ++ "," ++ jsToStringList rest

end

/-- JS strict equality `===` restricted to the values the engine meets:
primitives compare structurally; distinct object values are never equal
(object identity is not representable, so object comparison yields
`false`). -/
def jsEq : Value → Value → Bool
  | .str a, .str b => a == b
  | .num a, .num b => a == b
  | .bool a, .bool b => a == b
  | .undefined, .undefined => true
  | _, _ => false

/-- JS `.length`: defined for strings and arrays, `undefined` otherwise. -/
def jsLength : Value → Value
  | .str s => .num (s.length : Int)
  | .list es => .num (es.length : Int)
  | _ => .undefined

/-- JS `>` for the homogeneous cases the engine exercises (number/number
and string/string); heterogeneous comparisons yield `false`. -/
def jsGt : Value → Value → Bool
  | .num a, .num b => a > b
  | .str a, .str b => decide (b < a)
  | _, _ => false

/-- JS `>=`, same scope as `jsGt`. -/
def jsGe : Value → Value → Bool
  | .num a, .num b => a ≥ b
  | .str a, .str b => decide (b ≤ a)
  | _, _ => false

/-- JS `<`, same scope as `jsGt`. -/
def jsLt : Value → Value → Bool
  | .num a, .num b => a < b
  | .str a, .str b => decide (a < b)
  | _, _ => false

/-- JS `<=`, same scope as `jsGt`. -/
def jsLe : Value → Value → Bool
  | .num a, .num b => a ≤ b
  | .str a, .str b => decide (a ≤ b)
  | _, _ => false

/-- Does list `needle` occur at the start of `hay`? -/
def jsStartsWith : List Char → List Char → Bool
  | [], _ => true
  | _ :: _, [] => false
  | a :: as, b :: bs => a == b && jsStartsWith as bs

/-- Does list `needle` occur anywhere inside `hay` (JS `String.includes`)? -/
def jsHasSub (needle : List Char) : List Char → Bool
  | [] => needle.isEmpty
  | c :: rest => jsStartsWith needle (c :: rest) || jsHasSub needle rest

/-- JS `container.includes(x)`: array membership under `===`, or substring
test when the container is a string. -/
def jsIncludes (container x : Value) : Bool :=
  match container with
  | .list es => es.any (fun e => jsEq e x)
  | .str s => jsHasSub (jsToString x).data s.data
  | _ => false

/-- `name.split('.').pop()`: the substring after the final dot (the whole
string when no dot is present). -/
def extOf (s : String) : String :=
  (s.splitOn ".").getLastD ""

/-- A data record: flat mapping from field name to value (JS object
modelled as an association list with unique keys). -/
abbrev Data := List (String × Value)

/-- `data[k]`, yielding `undefined` for an absent key. -/
def dataGet (data : Data) (k : String) : Value :=
  (List.lookup k data).getD .undefined

/-! ### Regular expressions

The `pattern` registry in src/index.js holds five JS regex literals.  They
are embedded as abstract syntax and executed by Brzozowski derivatives;
the JS `test` semantics (unanchored search) is recovered from the anchors
each literal actually carries: `email`, `double` and `alpha` are anchored
on both sides (whole-string match), `integer` only at the start (some
prefix must match), `number` only at the end (some suffix must match). -/

/-- The whitespace set of the JS `\s` / `\S` character classes. -/
def jsWhitespace : List Char :=
  ['\t', '\n', Char.ofNat 11, Char.ofNat 12, '\r', ' ', Char.ofNat 160,
   Char.ofNat 0x1680, Char.ofNat 0x2000, Char.ofNat 0x2001, Char.ofNat 0x2002,
   Char.ofNat 0x2003, Char.ofNat 0x2004, Char.ofNat 0x2005, Char.ofNat 0x2006,
   Char.ofNat 0x2007, Char.ofNat 0x2008, Char.ofNat 0x2009, Char.ofNat 0x200A,
   Char.ofNat 0x2028, Char.ofNat 0x2029, Char.ofNat 0x202F, Char.ofNat 0x205F,
   Char.ofNat 0x3000, Char.ofNat 0xFEFF]

/-- Line terminators, which the JS `.` class does not match. -/
def jsLineTerminators : List Char :=
  ['\n', '\r', Char.ofNat 0x2028, Char.ofNat 0x2029]

/-- A character class of the regex literals in the source: an explicit
set, the negation of an explicit set, `[0-9]`, `\S`, or `.` . -/
inductive CClass where
  | chars : List Char → CClass
  | notIn : List Char → CClass
  | digit : CClass
  | nonSpace : CClass
  | anyChar : CClass

/-- Whether a character belongs to a class. -/
def CClass.matches : CClass → Char → Bool
  | .chars l, c => l.contains c
  | .notIn l, c => !(l.contains c)
  | .digit, c => '0' ≤ c && c ≤ '9'
  | .nonSpace, c => !(jsWhitespace.contains c)
  | .anyChar, c => !(jsLineTerminators.contains c)

/-- Regex abstract syntax (anchors are handled by the wrappers below). -/
inductive Regex where
  | fail : Regex
  | eps : Regex
  | cls : CClass → Regex
  | cat : Regex → Regex → Regex
  | alt : Regex → Regex → Regex
  | star : Regex → Regex

/-- `r+` as `r · r*`. -/
def Regex.plus (r : Regex) : Regex := .cat r (.star r)

/-- `r?` as `r | ε`. -/
def Regex.opt (r : Regex) : Regex := .alt r .eps

/-- Does the regex accept the empty word? -/
def Regex.nullable : Regex → Bool
  | .fail => false
  | .eps => true
  | .cls _ => false
  | .cat a b => a.nullable && b.nullable
  | .alt a b => a.nullable || b.nullable
  | .star _ => true

/-- Brzozowski derivative by one character. -/
def Regex.deriv : Regex → Char → Regex
  | .fail, _ => .fail
  | .eps, _ => .fail
  | .cls k, c => if k.matches c then .eps else .fail
  | .cat a b, c =>
      if a.nullable then .alt (.cat (a.deriv c) b) (b.deriv c)
      else .cat (a.deriv c) b
  | .alt a b, c => .alt (a.deriv c) (b.deriv c)
  | .star a, c => .cat (a.deriv c) (.star a)

/-- Whole-word match via derivatives. -/
def Regex.rmatch (r : Regex) : List Char → Bool
  | [] => r.nullable
  | c :: cs => (r.deriv c).rmatch cs

/-- Does some prefix of the word match (JS `test` of a `^…`-only regex)? -/
def Regex.matchesAtStart (r : Regex) : List Char → Bool
  | [] => r.nullable
  | c :: cs => r.nullable || (r.deriv c).matchesAtStart cs

/-- Does some suffix of the word match (JS `test` of a `…$`-only regex)? -/
def Regex.matchesAtEnd (r : Regex) (l : List Char) : Bool :=
  r.rmatch l ||
    match l with
    | [] => false
    | _ :: rest => r.matchesAtEnd rest

/-- Source regex `/^\S+@\S+\.\S+$/` (the part between the anchors). -/
def emailRe : Regex :=
  .cat (Regex.plus (.cls .nonSpace))
    (.cat (.cls (.chars ['@']))
      (.cat (Regex.plus (.cls .nonSpace))
        (.cat (.cls (.chars ['.'])) (Regex.plus (.cls .nonSpace)))))

/-- Source regex `-?\\d*(\\.\\d+)?$` (the part before the `$`).  In a
JS regex literal `\\` is an escaped literal backslash, so this reads:
optional `-`, a literal backslash, any number of `d` characters, then
optionally a backslash, any character, a backslash and one or more `d`
characters. -/
def numberRe : Regex :=
  .cat (Regex.opt (.cls (.chars ['-'])))
    (.cat (.cls (.chars ['\\']))
      (.cat (.star (.cls (.chars ['d'])))
        (Regex.opt
          (.cat (.cls (.chars ['\\']))
            (.cat (.cls .anyChar)
              (.cat (.cls (.chars ['\\'])) (Regex.plus (.cls (.chars ['d'])))))))))

/-- Source regex `/^[0-9]+.[0-9]+$/` (between the anchors); the `.` is an
unescaped any-character class. -/
def doubleRe : Regex :=
  .cat (Regex.plus (.cls .digit)) (.cat (.cls .anyChar) (Regex.plus (.cls .digit)))

/-- Source regex `/^[0-9]+/` (after the `^`); note there is no `$`. -/
def integerRe : Regex :=
  Regex.plus (.cls .digit)

/-- The negated character class of the `alpha` regex, in source order. -/
def alphaBlacklist : List Char :=
  [Char.ofNat 96, '~', '-', '!', '@', '#', '$', '%', '^', '&', '*', '(', ')',
   '_', '+', '=', Char.ofNat 123, Char.ofNat 125, '[', ']', '|', '\\', ':', ';',
   Char.ofNat 8220, Char.ofNat 8217, '<', ',', '>', '.', '?',
   Char.ofNat 3664, Char.ofNat 3647]

/-- Source regex `/^[^…]*$/` for `alpha` (between the anchors). -/
def alphaRe : Regex :=
  .star (.cls (.notIn alphaBlacklist))

/-- The fixed `patterns` registry of the `pattern` constraint, as a lookup
from pattern name to a `test` function (`none` for an unregistered name). -/
def patternRegistry (name : String) : Option (String → Bool) :=
  match name with
  | "email" => some (fun s => emailRe.rmatch s.data)
  | "number" => some (fun s => numberRe.matchesAtEnd s.data)
  | "double" => some (fun s => doubleRe.rmatch s.data)
  | "integer" => some (fun s => integerRe.matchesAtStart s.data)
  | "alpha" => some (fun s => alphaRe.rmatch s.data)
  | _ => none

/-! ### Constraint parameters and the evaluator -/

/-- Constraint parameters as declared in a schema.  The source passes raw
JS values; the shapes that occur are: a bare (message) value (`required`),
a plain array whose last element is the message (`min`, `pattern`, …), a
bare function (`validator`), a two- or three-element `validate` array
whose first element is a function, and a `regexp` array whose first
element is a regex object (carried here as its `test` function). -/
inductive Params where
  | single : Value → Params
  | arr : List Value → Params
  | fn : (Value → Data → Value) → Params
  | fnArr2 : (Value → Data → Value) → Value → Params
  | fnArr3 : (Value → Value → Data → Value) → Value → Value → Params
  | regexArr : (String → Bool) → Value → Params

/-- `constraintParams[i]`: array indexing, `undefined` out of range or on
a non-array; positions holding a function or regex object read back as
the opaque function marker. -/
def pIndex : Params → Nat → Value
  | .arr es, i => es.getD i .undefined
  | .fnArr2 _ m, i => if i = 0 then .fnRef else if i = 1 then m else .undefined
  | .fnArr3 _ aux m, i =>
      if i = 0 then .fnRef else if i = 1 then aux else if i = 2 then m else .undefined
  | .regexArr _ m, i => if i = 0 then .fnRef else if i = 1 then m else .undefined
  | .single _, _ => .undefined
  | .fn _, _ => .undefined

/-- The message of a constraint, from src line 123:
`Array.isArray(p) ? p[p.length - 1] : p` — the last element of an array,
the parameter itself otherwise. -/
def constraintMessage : Params → Value
  | .single v => v
  | .arr es => es.getLastD .undefined
  | .fn _ => .fnRef
  | .fnArr2 _ m => m
  | .fnArr3 _ _ m => m
  | .regexArr _ m => m

/-- `validator` invocation `constraintParams(fieldValue, data)`; calling a
non-function is not modelled and yields `undefined`. -/
def callValidator : Params → Value → Data → Value
  | .fn g, v, data => g v data
  | _, _, _ => .undefined

/-- `validate` invocation: with three params `p[0](v, p[1], data)`, with
two `p[0](v, data)` (src lines 40-45 and 104-109). -/
def callValidate : Params → Value → Data → Value
  | .fnArr3 g aux _, v, data => g v aux data
  | .fnArr2 g _, v, data => g v data
  | _, _, _ => .undefined

/-- The constraint evaluator, a direct transcription of `checkConstraint`
(src lines 8-114).  It dispatches on whether the value has a `.name`
attribute (file branch) and then on the constraint name; the default
branch of both switches returns an `Error` object. -/
def checkConstraint (constraintName : String) (fieldValue : Value)
    (constraintParams : Params) (data : Data) : Value :=
  match fieldValue with
  | .file fname fsize ftype =>
      match constraintName with
      | "required" => .bool (fname != "")
      | "ext" => .bool (jsEq (.str (extOf fname)) (pIndex constraintParams 0))
      | "extAllowed" =>
          .bool (jsIncludes (pIndex constraintParams 0) (.str (extOf fname)))
      | "extNotAllowed" =>
          .bool (!jsIncludes (pIndex constraintParams 0) (.str (extOf fname)))
      | "sizeEqual" => .bool (jsEq (.num fsize) (pIndex constraintParams 0))
      | "sizeNotEqual" => .bool (!jsEq (.num fsize) (pIndex constraintParams 0))
      | "sizeGt" => .bool (jsGt (.num fsize) (pIndex constraintParams 0))
      | "sizeGte" => .bool (jsGe (.num fsize) (pIndex constraintParams 0))
      | "sizeLt" => .bool (jsLt (.num fsize) (pIndex constraintParams 0))
      | "sizeLte" => .bool (jsLe (.num fsize) (pIndex constraintParams 0))
      | "type" => .bool (jsEq (.str ftype) (pIndex constraintParams 0))
      | "typeIn" => .bool (jsIncludes (pIndex constraintParams 0) (.str ftype))
      | "typeNotIn" => .bool (!jsIncludes (pIndex constraintParams 0) (.str ftype))
      | "validator" => callValidator constraintParams fieldValue data
      | "validate" => callValidate constraintParams fieldValue data
      | _ => .err
  | _ =>
      match constraintName with
      | "required" => .bool fieldValue.truthy
      | "min" => .bool (jsGe (jsLength fieldValue) (pIndex constraintParams 0))
      | "max" => .bool (jsLe (jsLength fieldValue) (pIndex constraintParams 0))
      | "equalField" =>
          .bool (jsEq fieldValue (dataGet data (jsToString (pIndex constraintParams 0))))
      | "notEqualField" =>
          .bool (!jsEq fieldValue (dataGet data (jsToString (pIndex constraintParams 0))))
      | "equal" => .bool (jsEq fieldValue (pIndex constraintParams 0))
      | "notEqual" => .bool (!jsEq fieldValue (pIndex constraintParams 0))
      | "gt" => .bool (jsGt fieldValue (pIndex constraintParams 0))
      | "gte" => .bool (jsGe fieldValue (pIndex constraintParams 0))
      | "lt" => .bool (jsLt fieldValue (pIndex constraintParams 0))
      | "lte" => .bool (jsLe fieldValue (pIndex constraintParams 0))
      | "gtField" =>
          .bool (jsGt fieldValue (dataGet data (jsToString (pIndex constraintParams 0))))
      | "gteField" =>
          .bool (jsGe fieldValue (dataGet data (jsToString (pIndex constraintParams 0))))
      | "ltField" =>
          .bool (jsLt fieldValue (dataGet data (jsToString (pIndex constraintParams 0))))
      | "lteField" =>
          .bool (jsLe fieldValue (dataGet data (jsToString (pIndex constraintParams 0))))
      | "in" => .bool (jsIncludes (pIndex constraintParams 0) fieldValue)
      | "notIn" => .bool (!jsIncludes (pIndex constraintParams 0) fieldValue)
      | "pattern" =>
          match patternRegistry (jsToString (pIndex constraintParams 0)) with
          | some t =>
              if jsEq (jsLength fieldValue) (.num 0) then .bool true
              else .bool (t (jsToString fieldValue))
          | none => .bool false
      | "regexp" =>
          match constraintParams with
          | .regexArr t _ => .bool (t (jsToString fieldValue))
          | _ => .undefined
      | "validator" => callValidator constraintParams fieldValue data
      | "validate" => callValidate constraintParams fieldValue data
      | _ => .err

/-! ### The schema validator -/

/-- The constraints declared for one field, in declaration order. -/
abbrev FieldRules := List (String × Params)

/-- A schema: field name to its rules, in declaration order. -/
abbrev Schema := List (String × FieldRules)

/-- The error object: field name to its collected messages. -/
abbrev ErrorObj := List (String × List Value)

/-- The message one constraint contributes, from the loop body of
`checkConstraints` (src lines 120-128): a non-`validator` constraint whose
evaluation is falsy contributes its declared message; a `validator` whose
evaluation is truthy contributes the evaluation result itself; the
message is kept only when it is itself truthy. -/
def contributedMessage (constraintName : String) (fieldValue : Value)
    (p : Params) (data : Data) : Option Value :=
  let isValidated := checkConstraint constraintName fieldValue p data
  let message : Value :=
    if constraintName != "validator" && !isValidated.truthy then
      constraintMessage p
    else if isValidated.truthy && constraintName == "validator" then
      isValidated
    else .undefined
  if message.truthy then some message else none

/-- `errors[k] ? errors[k].push(m) : errors[k] = [m]` on the error
object (src lines 129-133). -/
def addMessage (errors : ErrorObj) (k : String) (m : Value) : ErrorObj :=
  if errors.any (fun e => e.1 == k) then
    errors.map (fun e => if e.1 == k then (e.1, e.2 ++ [m]) else e)
  else errors ++ [(k, [m])]

/-- The `for … of Object.entries(constraints)` loop of `checkConstraints`
(src lines 119-135), with the error object threaded explicitly. -/
def checkLoop (fieldName : String) (data : Data) :
    FieldRules → ErrorObj → ErrorObj
  | [], errors => errors
  | (cName, cParams) :: rest, errors =>
      match contributedMessage cName (dataGet data fieldName) cParams data with
      | some m => checkLoop fieldName data rest (addMessage errors fieldName m)
      | none => checkLoop fieldName data rest errors

/-- `checkConstraints` (src lines 116-138): `null` (here `none`) when the
value is the empty string and `required` is not among the declared
constraint names, otherwise the error object built by the loop. -/
def checkConstraints (fieldName : String) (constraints : FieldRules)
    (data : Data) : Option ErrorObj :=
  if jsEq (dataGet data fieldName) (.str "") &&
      !(constraints.any (fun c => c.1 == "required")) then
    none
  else some (checkLoop fieldName data constraints [])

/-- `validateField` (src lines 140-147): `{}` when the field is not
declared in the schema, otherwise the raw `checkConstraints` result
(which may be `null`). -/
def validateField (schema : Schema) (fieldName : String) (data : Data) :
    Option ErrorObj :=
  match List.lookup fieldName schema with
  | some rules => checkConstraints fieldName rules data
  | none => some []

/-- The object spread `{...errors, ...checkConstraints(...)}`: spreading
`null` adds nothing; otherwise existing keys are overridden in place and
new keys are appended in order. -/
def spreadMerge (a : ErrorObj) : Option ErrorObj → ErrorObj
  | none => a
  | some b =>
      a.map (fun e =>
        match b.find? (fun x => x.1 == e.1) with
        | some x => x
        | none => e)
      ++ b.filter (fun x => !(a.any (fun e => e.1 == x.1)))

/-- `validateForm` (src lines 149-156): fold the per-field results over
every field declared in the schema. -/
def validateForm (schema : Schema) (data : Data) : ErrorObj :=
  schema.foldl
    (fun errors fc => spreadMerge errors (checkConstraints fc.1 fc.2 data)) []

/-! ### Specification-side definitions -/

/-- The messages recorded for field `f` in an error object (empty when
the field is absent). -/
def getMsgs (e : ErrorObj) (f : String) : List Value :=
  (List.lookup f e).getD []

/-- Specification view of a field's failure messages: the contributed
messages of the field's constraints, listed in declaration order. -/
def orderedMessages (fieldName : String) (constraints : FieldRules)
    (data : Data) : List Value :=
  constraints.filterMap
    (fun c => contributedMessage c.1 (dataGet data fieldName) c.2 data)

/-! ### Structural lemmas about the error-object accumulation -/

theorem addMessage_nil (f : String) (m : Value) :
    addMessage [] f m = [(f, [m])] := rfl

theorem addMessage_self (f : String) (ms : List Value) (m : Value) :
    addMessage [(f, ms)] f m = [(f, ms ++ [m])] := by
  simp [addMessage]

/-- Running the constraint loop on an object holding entry `f` only grows
that entry, in declaration order of the constraints. -/
theorem checkLoop_single (f : String) (data : Data) (cs : FieldRules) :
    ∀ ms : List Value,
      checkLoop f data cs [(f, ms)] = [(f, ms ++ orderedMessages f cs data)] := by
  induction cs with
  | nil => intro ms; simp [checkLoop, orderedMessages]
  | cons c rest ih =>
      intro ms
      obtain ⟨cn, cp⟩ := c
      cases h : contributedMessage cn (dataGet data f) cp data with
      | some m =>
          simp [checkLoop, h, addMessage_self, ih, orderedMessages,
            List.filterMap_cons]
      | none =>
          simp [checkLoop, h, ih, orderedMessages, List.filterMap_cons]

/-- The constraint loop started on the fresh empty object produces no
entry when nothing is contributed, and otherwise exactly one entry, for
the field itself, holding the contributed messages in declaration
order. -/
theorem checkLoop_from_nil (f : String) (data : Data) (cs : FieldRules) :
    checkLoop f data cs [] =
      match orderedMessages f cs data with
      | [] => []
      | m :: ms => [(f, m :: ms)] := by
  induction cs with
  | nil => simp [checkLoop, orderedMessages]
  | cons c rest ih =>
      obtain ⟨cn, cp⟩ := c
      cases h : contributedMessage cn (dataGet data f) cp data with
      | some m =>
          simp [checkLoop, h, orderedMessages, List.filterMap_cons,
            addMessage_nil, checkLoop_single]
      | none =>
          simpa [checkLoop, h, orderedMessages, List.filterMap_cons] using ih

theorem getMsgs_checkLoop (f : String) (data : Data) (cs : FieldRules) :
    getMsgs (checkLoop f data cs []) f = orderedMessages f cs data := by
  rw [checkLoop_from_nil]
  cases h : orderedMessages f cs data with
  | nil => simp [getMsgs]
  | cons m ms => simp [getMsgs, List.lookup]

theorem checkLoop_key (f : String) (data : Data) (cs : FieldRules) :
    ∀ p ∈ checkLoop f data cs [], p.1 = f := by
  rw [checkLoop_from_nil]
  cases orderedMessages f cs data <;> simp

theorem checkLoop_nonempty (f : String) (data : Data) (cs : FieldRules) :
    ∀ p ∈ checkLoop f data cs [], p.2 ≠ [] := by
  rw [checkLoop_from_nil]
  cases orderedMessages f cs data <;> simp

theorem checkConstraints_some (f : String) (cs : FieldRules) (data : Data)
    (e : ErrorObj) (h : checkConstraints f cs data = some e) :
    e = checkLoop f data cs [] := by
  unfold checkConstraints at h
  split at h
  · cases h
  · exact (Option.some.injEq _ _ ▸ h).symm

theorem checkConstraints_some_key (f : String) (cs : FieldRules) (data : Data)
    (e : ErrorObj) (h : checkConstraints f cs data = some e) :
    ∀ p ∈ e, p.1 = f := by
  rw [checkConstraints_some f cs data e h]
  exact checkLoop_key f data cs

theorem checkConstraints_some_nonempty (f : String) (cs : FieldRules)
    (data : Data) (e : ErrorObj) (h : checkConstraints f cs data = some e) :
    ∀ p ∈ e, p.2 ≠ [] := by
  rw [checkConstraints_some f cs data e h]
  exact checkLoop_nonempty f data cs

/-- Every entry of a spread-merge comes from one of the two objects. -/
theorem spreadMerge_forall {P : String × List Value → Prop} (a : ErrorObj)
    (b : Option ErrorObj) (ha : ∀ p ∈ a, P p)
    (hb : ∀ e, b = some e → ∀ p ∈ e, P p) :
    ∀ p ∈ spreadMerge a b, P p := by
  cases b with
  | none => simpa [spreadMerge] using ha
  | some bs =>
      intro p hp
      rw [spreadMerge, List.mem_append] at hp
      rcases hp with hp | hp
      · obtain ⟨q, hq, hgq⟩ := List.mem_map.mp hp
        cases hfind : bs.find? (fun x => x.1 == q.1) with
        | some x =>
            rw [hfind] at hgq
            exact hgq ▸ hb bs rfl x (List.mem_of_find?_eq_some hfind)
        | none =>
            rw [hfind] at hgq
            exact hgq ▸ ha q hq
      · exact hb bs rfl p (List.mem_filter.mp hp).1

/-- Entry-wise property of the whole-form fold. -/
theorem foldl_spread_forall {P : String × List Value → Prop} (data : Data) :
    ∀ (l : Schema) (acc : ErrorObj), (∀ p ∈ acc, P p) →
      (∀ g cs e, (g, cs) ∈ l → checkConstraints g cs data = some e →
        ∀ p ∈ e, P p) →
      ∀ p ∈ l.foldl
        (fun errors fc => spreadMerge errors (checkConstraints fc.1 fc.2 data))
        acc, P p := by
  intro l
  induction l with
  | nil => intro acc hacc _ p hp; exact hacc p hp
  | cons hd tl ih =>
      intro acc hacc hstep p hp
      rw [List.foldl_cons] at hp
      refine ih _ ?_ ?_ p hp
      · exact spreadMerge_forall acc _ hacc
          (fun e he => hstep hd.1 hd.2 e (by simp) he)
      · exact fun g cs e hmem he => hstep g cs e (List.mem_cons_of_mem _ hmem) he

theorem validateForm_forall {P : String × List Value → Prop} (schema : Schema)
    (data : Data)
    (hstep : ∀ g cs e, (g, cs) ∈ schema → checkConstraints g cs data = some e →
      ∀ p ∈ e, P p) :
    ∀ p ∈ validateForm schema data, P p := by
  exact foldl_spread_forall data schema [] (by simp) hstep

theorem lookup_eq_none_of_keys {β : Type} (f : String) :
    ∀ l : List (String × β), (∀ p ∈ l, p.1 ≠ f) → List.lookup f l = none := by
  intro l
  induction l with
  | nil => intro _; rfl
  | cons hd tl ih =>
      intro h
      have h1 : hd.1 ≠ f := h hd (List.mem_cons_self _ _)
      have h2 : (f == hd.1) = false := beq_eq_false_iff_ne.mpr (Ne.symm h1)
      simpa [List.lookup, h2] using ih (fun p hp => h p (List.mem_cons_of_mem _ hp))

theorem lookup_of_mem_nodup {β : Type} :
    ∀ l : List (String × β), (l.map Prod.fst).Nodup →
      ∀ (f : String) (cs : β), (f, cs) ∈ l → List.lookup f l = some cs := by
  intro l
  induction l with
  | nil => simp
  | cons hd tl ih =>
      intro hnd f cs hmem
      rw [List.map_cons, List.nodup_cons] at hnd
      rcases List.mem_cons.mp hmem with heq | htl
      · cases heq.symm
        simp [List.lookup]
      · have hne : (f == hd.1) = false := by
          refine beq_eq_false_iff_ne.mpr (fun hEq => hnd.1 ?_)
          exact hEq ▸ List.mem_map.mpr ⟨(f, cs), htl, rfl⟩
        simpa [List.lookup, hne] using ih hnd.2 f cs htl

/-- `validator` evaluation is the bare function call, on files and
scalars alike. -/
theorem checkConstraint_validator (v : Value) (g : Value → Data → Value)
    (data : Data) : checkConstraint "validator" v (.fn g) data = g v data := by
  cases v <;> rfl

/-! ### Claims -/

/-- Claim C1 (refuted by the code, code bug): for a constraint name
outside the fixed vocabulary the claim demands a distinct InvalidSchema
signal, never a silent pass.  In the code, `checkConstraint` returns
`new Error()` from its default branch, but an `Error` object is truthy,
so the loop in `checkConstraints` counts the constraint as validated and
contributes no message: `validateForm` returns the empty report and the
schema error is silently swallowed. -/
theorem unknown_constraint_silently_passes :
    checkConstraint "bogus" (.str "x") (.single (.str "msg")) [("f", .str "x")]
      = .err
    ∧ Value.truthy .err = true
    ∧ validateForm [("f", [("bogus", .single (.str "msg"))])] [("f", .str "x")]
      = [] :=
  ⟨rfl, rfl, rfl⟩

/-- Claim C6 (refuted by the code, code bug): the `number` regex literal
escapes its backslashes, so it demands a literal backslash character and
rejects the plain digit string `"123"`; the `integer` regex lacks an end
anchor, so it accepts `"123abc"`; the `double` regex has an unescaped
dot, so it accepts `"12x34"`.  Each contradicts the documented shape. -/
theorem pattern_registry_divergences :
    checkConstraint "pattern" (.str "123")
      (.arr [.str "number", .str "msg"]) [] = .bool false
    ∧ checkConstraint "pattern" (.str "123abc")
      (.arr [.str "integer", .str "msg"]) [] = .bool true
    ∧ checkConstraint "pattern" (.str "12x34")
      (.arr [.str "double", .str "msg"]) [] = .bool true :=
  ⟨rfl, rfl, rfl⟩

/-- Claim C5, counterexample: a `pattern` constraint naming an
unregistered pattern is coerced into an ordinary validation failure
carrying the constraint's declared message — the very outcome the claim
rules out — rather than surfacing a structural error. -/
theorem unknown_pattern_yields_declared_message :
    checkConstraints "f" [("pattern", .arr [.str "bogus", .str "msg"])]
      [("f", .str "x")] = some [("f", [.str "msg"])] :=
  rfl

/-- Claim C5 as amended: for a `pattern` name absent from the registry the
evaluator returns plain `false`, and the constraint contributes exactly
its declared message (when that message is truthy) — an ordinary
validation failure, with no InvalidSchema signal. -/
theorem unknown_pattern_ordinary_failure (pname s : String) (m : Value)
    (data : Data) (h : patternRegistry pname = none) :
    checkConstraint "pattern" (.str s) (.arr [.str pname, m]) data = .bool false
    ∧ contributedMessage "pattern" (.str s) (.arr [.str pname, m]) data
        = (if m.truthy then some m else none) := by
  have h1 : checkConstraint "pattern" (.str s) (.arr [.str pname, m]) data
      = .bool false := by
    simp [checkConstraint, pIndex, jsToString, h]
  refine ⟨h1, ?_⟩
  have h2 : constraintMessage (.arr [.str pname, m]) = m := rfl
  have h3 : (("pattern" : String) != "validator") = true := rfl
  simp [contributedMessage, h1, h2, h3, Value.truthy]

/-- Witness for `unknown_pattern_ordinary_failure` at the pattern name
`bogus`, the value `x` and the message `msg`. -/
theorem unknown_pattern_ordinary_failure_witness :
    checkConstraint "pattern" (.str "x") (.arr [.str "bogus", .str "msg"]) []
      = .bool false
    ∧ contributedMessage "pattern" (.str "x") (.arr [.str "bogus", .str "msg"]) []
        = (if (Value.str "msg").truthy then some (.str "msg") else none) :=
  unknown_pattern_ordinary_failure "bogus" "x" (.str "msg") [] rfl

/-- Claim C2, counterexample: a `validator` function returning the boolean
`true` contributes the boolean itself as the reported message, so a
boolean return value can appear in the error report, contrary to the
claim. -/
theorem validator_boolean_true_becomes_message :
    checkConstraints "f" [("validator", .fn (fun _ _ => .bool true))]
      [("f", .str "x")] = some [("f", [.bool true])] :=
  rfl

/-- Claim C2 as amended: a `validator` constraint contributes an entry if
and only if the supplied function returns a truthy value, and the
returned value itself is stored as the message.  Non-empty strings are
the documented case; falsy returns (booleans included) contribute
nothing, but the truthy boolean `true` is stored verbatim. -/
theorem validator_contributes_iff_truthy (g : Value → Data → Value)
    (f : String) (data : Data) (h : jsEq (dataGet data f) (.str "") = false) :
    contributedMessage "validator" (dataGet data f) (.fn g) data
      = (if (g (dataGet data f) data).truthy
          then some (g (dataGet data f) data) else none)
    ∧ checkConstraints f [("validator", .fn g)] data
      = some (if (g (dataGet data f) data).truthy
          then [(f, [g (dataGet data f) data])] else []) := by
  have hcv := checkConstraint_validator (dataGet data f) g data
  have hvr : (("validator" : String) == "required") = false := rfl
  have hu : Value.truthy .undefined = false := rfl
  have hmsg : contributedMessage "validator" (dataGet data f) (.fn g) data
      = (if (g (dataGet data f) data).truthy
          then some (g (dataGet data f) data) else none) := by
    cases ht : (g (dataGet data f) data).truthy <;>
      simp [contributedMessage, hcv, ht, hu]
  refine ⟨hmsg, ?_⟩
  cases ht : (g (dataGet data f) data).truthy <;>
    simp [checkConstraints, h, hvr, checkLoop, hmsg, ht, addMessage]

/-- Witness for `validator_contributes_iff_truthy`: a validator returning
the string `Password is too short!` on the record `{f: "x"}`. -/
theorem validator_contributes_iff_truthy_witness :
    contributedMessage "validator" (dataGet [("f", .str "x")] "f")
      (.fn (fun _ _ => .str "Password is too short!")) [("f", .str "x")]
      = (if (Value.str "Password is too short!").truthy
          then some (.str "Password is too short!") else none)
    ∧ checkConstraints "f"
        [("validator", .fn (fun _ _ => .str "Password is too short!"))]
        [("f", .str "x")]
      = some (if (Value.str "Password is too short!").truthy
          then [("f", [.str "Password is too short!"])] else []) :=
  validator_contributes_iff_truthy
    (fun _ _ => .str "Password is too short!") "f" [("f", .str "x")] rfl

/-- Claim C8 (confirmed): `validateForm` is, in this embedding, a pure
function of the schema and the data record alone — the engine threads no
other state — so two calls on the same arguments return the identical
error report. -/
theorem validateForm_no_hidden_state (schema : Schema) (data : Data) :
    validateForm schema data = validateForm schema data :=
  rfl

/-- Claim C10 (confirmed): for a field name not declared in the schema,
`validateField` takes the `none` branch of its schema lookup and returns
the empty error object immediately, never reaching `checkConstraints`. -/
theorem undeclared_field_empty_report (schema : Schema) (f : String)
    (data : Data) (h : List.lookup f schema = none) :
    validateField schema f data = some [] := by
  simp [validateField, h]

/-- Witness for `undeclared_field_empty_report` at a one-field schema and
an undeclared field name. -/
theorem undeclared_field_empty_report_witness :
    validateField [("login", [("required", Params.single (.str "R"))])]
      "nope" [("nope", .str "")] = some [] :=
  undeclared_field_empty_report _ "nope" _ rfl

/-- Claim C7 (confirmed): whenever `checkConstraints` returns an error
object, the messages recorded for the field are exactly the contributed
messages of the field's constraints, in the order the constraints are
declared in its rules. -/
theorem messages_follow_declaration_order (f : String) (cs : FieldRules)
    (data : Data) (e : ErrorObj) (h : checkConstraints f cs data = some e) :
    getMsgs e f = orderedMessages f cs data := by
  rw [checkConstraints_some f cs data e h]
  exact getMsgs_checkLoop f data cs

/-- Witness for `messages_follow_declaration_order`: a field declaring a
failing `min` then a failing `max` reports the two messages in that
order. -/
theorem messages_follow_declaration_order_witness :
    getMsgs [("f", [.str "A", .str "B"])] "f"
      = orderedMessages "f"
          [("min", Params.arr [.num 4, .str "A"]),
           ("max", Params.arr [.num 1, .str "B"])]
          [("f", .str "abc")] :=
  messages_follow_declaration_order "f"
    [("min", Params.arr [.num 4, .str "A"]),
     ("max", Params.arr [.num 1, .str "B"])]
    [("f", .str "abc")] [("f", [.str "A", .str "B"])] rfl

/-- Claim C3 (confirmed): a field whose rules declare `required` with a
truthy message always receives that message in the report when its value
is the empty string or a file descriptor with empty name — the
optional-field short-circuit is disabled by the presence of `required`,
and `required` evaluates to `false` on both empty shapes. -/
theorem required_empty_always_reported (schema : Schema) (f : String)
    (data : Data) (rules : FieldRules) (p : Params)
    (hs : List.lookup f schema = some rules)
    (hr : ("required", p) ∈ rules)
    (hm : (constraintMessage p).truthy = true)
    (hv : dataGet data f = .str ""
      ∨ ∃ sz ty, dataGet data f = .file "" sz ty) :
    ∃ e, validateField schema f data = some e
      ∧ constraintMessage p ∈ getMsgs e f := by
  have hany : rules.any (fun c => c.1 == "required") = true :=
    List.any_eq_true.mpr ⟨("required", p), hr, by simp⟩
  have hcc : checkConstraints f rules data
      = some (checkLoop f data rules []) := by
    simp [checkConstraints, hany]
  refine ⟨checkLoop f data rules [], ?_, ?_⟩
  · simp only [validateField, hs]
    exact hcc
  · rw [getMsgs_checkLoop]
    apply List.mem_filterMap.mpr
    refine ⟨("required", p), hr, ?_⟩
    have hfalse : checkConstraint "required" (dataGet data f) p data
        = .bool false := by
      rcases hv with hv | ⟨sz, ty, hv⟩ <;> rw [hv] <;> rfl
    have h1 : (("required" : String) != "validator") = true := rfl
    have h2 : Value.truthy (.bool false) = false := rfl
    simp [contributedMessage, hfalse, h1, h2, hm]

/-- Witness for `required_empty_always_reported` at the README login
example with an empty login value. -/
theorem required_empty_always_reported_witness :
    ∃ e, validateField
        [("login", [("required", Params.single (.str "Required"))])]
        "login" [("login", .str "")] = some e
      ∧ constraintMessage (Params.single (.str "Required")) ∈ getMsgs e "login" :=
  required_empty_always_reported
    [("login", [("required", Params.single (.str "Required"))])] "login"
    [("login", .str "")] [("required", Params.single (.str "Required"))]
    (Params.single (.str "Required")) rfl (List.Mem.head _) rfl (Or.inl rfl)

/-- Claim C4 (confirmed): a field whose rules do not declare `required`
and whose data value is the empty string is short-circuited —
`checkConstraints` returns `null` before evaluating any constraint — so
`validateField` carries no entry (it returns the `null` itself) and
`validateForm` has no entry under that field name.  The no-duplicate-keys
hypothesis reflects that a JS object literal cannot declare one field
twice. -/
theorem optional_empty_field_absent (schema : Schema) (f : String)
    (data : Data) (rules : FieldRules)
    (hs : List.lookup f schema = some rules)
    (hnr : rules.all (fun c => c.1 != "required") = true)
    (hnd : (schema.map Prod.fst).Nodup)
    (hv : dataGet data f = .str "") :
    validateField schema f data = none
    ∧ List.lookup f (validateForm schema data) = none := by
  have hje : jsEq (dataGet data f) (.str "") = true := by rw [hv]; rfl
  have hany : rules.any (fun c => c.1 == "required") = false := by
    cases hx : rules.any (fun c => c.1 == "required") with
    | false => rfl
    | true =>
        obtain ⟨c, hc, hb⟩ := List.any_eq_true.mp hx
        have hall := List.all_eq_true.mp hnr c hc
        simp only [bne, hb, Bool.not_true] at hall
        exact absurd hall (by simp)
  have hccnone : checkConstraints f rules data = none := by
    simp [checkConstraints, hje, hany]
  constructor
  · simp only [validateField, hs]
    exact hccnone
  · apply lookup_eq_none_of_keys
    apply validateForm_forall (P := fun p => p.1 ≠ f)
    intro g cs e hmem he
    by_cases hg : g = f
    · subst hg
      have hlk := lookup_of_mem_nodup schema hnd g cs hmem
      have hcs : rules = cs := by
        injection hs.symm.trans hlk
      rw [← hcs, hccnone] at he
      cases he
    · intro q hq
      rw [checkConstraints_some_key g cs data e he q hq]
      exact hg

/-- Witness for `optional_empty_field_absent`: an optional `min`-only
field with an empty value produces no entry. -/
theorem optional_empty_field_absent_witness :
    validateField [("f", [("min", Params.arr [.num 4, .str "short"])])] "f"
      [("f", .str "")] = none
    ∧ List.lookup "f"
        (validateForm [("f", [("min", Params.arr [.num 4, .str "short"])])]
          [("f", .str "")]) = none :=
  optional_empty_field_absent
    [("f", [("min", Params.arr [.num 4, .str "short"])])] "f"
    [("f", .str "")] [("min", Params.arr [.num 4, .str "short"])]
    rfl rfl (by simp) rfl

/-- Claim C9 (confirmed): every entry of a report built by `validateForm`
or `validateField` holds at least one message; a field with no
contributed messages is never stored with an empty list (it is simply
absent, or the whole result is `null`). -/
theorem report_entries_nonempty (schema : Schema) (f : String) (data : Data) :
    (∀ p ∈ validateForm schema data, p.2 ≠ [])
    ∧ (∀ e, validateField schema f data = some e → ∀ p ∈ e, p.2 ≠ []) := by
  constructor
  · exact validateForm_forall schema data
      (fun g cs e _ he => checkConstraints_some_nonempty g cs data e he)
  · intro e he q hq
    cases hlk : List.lookup f schema with
    | some rules =>
        simp only [validateField, hlk] at he
        exact checkConstraints_some_nonempty f rules data e he q hq
    | none =>
        simp only [validateField, hlk, Option.some.injEq] at he
        subst he
        exact absurd hq (List.not_mem_nil q)

/-- Witness for `report_entries_nonempty` at the README login example:
the single stored list is non-empty. -/
theorem report_entries_nonempty_witness :
    ([Value.str "Required"] : List Value) ≠ [] :=
  (report_entries_nonempty
      [("login", [("required", Params.single (.str "Required"))])]
      "login" [("login", .str "")]).1
    ("login", [Value.str "Required"]) (List.Mem.head _)

end UseFormSchema
